import Mathlib

set_option maxRecDepth 10000

/-!
Shallow embedding of the macrodata memory engine.

Part 1 models `plugins/local/src/conversations.ts`: the conversation-log
parser (exchange extraction), project-path decoding, time-weighted search
reranking, and conversation expansion.

Part 2 models `src/mcp-agent.ts`: the SQLite entity store, the write-through
vector mirror (saveState / saveJournal), and the scheduled task runner.

External capabilities (embedding function, vector index service, text
generation, the JS Date clock and ISO-date parsing) are passed in as
explicit oracle parameters.  JS `Array.prototype.sort` with a numeric
comparator is a stable sort, modelled by Mathlib stable insertion sort.
JS `String.prototype.slice(0, n)` is modelled by taking the first n
characters.  Scores are modelled by rationals.
-/

/-- Models JS `s.slice(0, n)` (truncation to the first n characters). -/
def jsSlice (s : String) (n : Nat) : String :=
  String.mk (s.data.take n)

/-- Models JS `arr.slice(-n)`: for n = 0 this is `arr.slice(0)`, the whole
array; otherwise the last n elements (clamped at the front). -/
def jsSliceLast {α : Type} (l : List α) (n : Nat) : List α :=
  if n = 0 then l else l.drop (l.length - n)

/-- Models a JS template interpolation of a possibly-undefined value:
undefined renders as the string "undefined". -/
def tmplOpt (o : Option String) : String :=
  o.getD "undefined"

/-- Models JS `x || d` for an optional string x: undefined or empty falls
back to d. -/
def optOr (o : Option String) (d : String) : String :=
  match o with
  | some s => if s = "" then d else s
  | none => d

/-- Models Node `path.basename(p)`: the last nonempty path segment. -/
def getProjectName (p : String) : String :=
  (((p.splitOn "/").filter (fun s => s ≠ "")).getLast?).getD p

-- ==========================================================================
-- Conversation log records (conversations.ts, ConversationMessage)
-- ==========================================================================

/-- One content block of an assistant/user message (type tag plus optional
text payload). -/
structure ContentBlock where
  btype : String
  text : Option String
deriving DecidableEq

/-- Message content: either a plain string or an array of content blocks. -/
inductive MsgContent where
  | str : String → MsgContent
  | blocks : List ContentBlock → MsgContent
deriving DecidableEq

/-- The `message` field of a log record. -/
structure MsgBody where
  role : String
  content : MsgContent
deriving DecidableEq

/-- One parsed JSONL log record (ConversationMessage in the source). -/
structure ConvMessage where
  mtype : String
  message : Option MsgBody
  uuid : Option String
  timestamp : Option String
  sessionId : Option String
  cwd : Option String
  gitBranch : Option String
deriving DecidableEq

/-- A derived conversation exchange record. -/
structure ConversationExchange where
  id : String
  userPrompt : String
  assistantSummary : String
  project : String
  projectPath : String
  branch : Option String
  timestamp : String
  sessionId : String
  sessionPath : String
  messageUuid : String
deriving DecidableEq

/-- JS truthiness of a `string | Array` content value: the empty string is
falsy, every array (even empty) is truthy. -/
def MsgContent.truthy : MsgContent → Bool
  | .str s => s != ""
  | .blocks _ => true

/-- Models `msg.message?.content` as a truthiness test. -/
def msgContentTruthy (m : ConvMessage) : Bool :=
  match m.message with
  | some b => b.content.truthy
  | none => false

/-- Source `extractAssistantText`: a string content is truncated to 500
characters; for block content, the first block with type "text" and truthy
text wins; otherwise the empty string. -/
def extractAssistantText : MsgContent → String
  | .str s => jsSlice s 500
  | .blocks bs =>
    match bs.find? (fun b => b.btype == "text" && (b.text.getD "" != "")) with
    | some b => jsSlice (b.text.getD "") 500
    | none => ""

/-- The user prompt captured from a pending user record: string content is
kept, block content yields the empty string (source line 134-136). -/
def stringContentOf (u : ConvMessage) : String :=
  match u.message with
  | some b =>
    match b.content with
    | .str s => s
    | .blocks _ => ""
  | none => ""

/-- The assistant text of a record, through `extractAssistantText`. -/
def assistantTextOf (m : ConvMessage) : String :=
  match m.message with
  | some b => extractAssistantText b.content
  | none => ""

/-- Builds the exchange pushed at source lines 140-151.  `nowIso` models
`new Date().toISOString()` and `fileBase` models
`basename(filePath, ".jsonl")`. -/
def mkExchange (projectName projectPath filePath nowIso fileBase : String)
    (u m : ConvMessage) : ConversationExchange :=
  { id := "conv-" ++ tmplOpt u.sessionId ++ "-" ++ tmplOpt u.uuid
  , userPrompt := jsSlice (stringContentOf u) 1000
  , assistantSummary := assistantTextOf m
  , project := projectName
  , projectPath := projectPath
  , branch := u.gitBranch
  , timestamp := optOr u.timestamp nowIso
  , sessionId := optOr u.sessionId fileBase
  , sessionPath := filePath
  , messageUuid := optOr u.uuid "" }

/-- The pairing loop of `parseConversationFile` (source lines 124-159).
The input list holds one entry per log line; `none` stands for a malformed
line (skipped by the catch).  The accumulator is the pending user record. -/
def parseLoop (projectName projectPath filePath nowIso fileBase : String) :
    List (Option ConvMessage) → Option ConvMessage → List ConversationExchange
  | [], _ => []
  | none :: rest, cur => parseLoop projectName projectPath filePath nowIso fileBase rest cur
  | some m :: rest, cur =>
    if m.mtype == "user" && msgContentTruthy m then
      parseLoop projectName projectPath filePath nowIso fileBase rest (some m)
    else
      match cur with
      | none => parseLoop projectName projectPath filePath nowIso fileBase rest none
      | some u =>
        if m.mtype == "assistant" && msgContentTruthy m then
          let userContent := stringContentOf u
          let assistantText := assistantTextOf m
          if userContent != "" && assistantText != "" then
            mkExchange projectName projectPath filePath nowIso fileBase u m
              :: parseLoop projectName projectPath filePath nowIso fileBase rest none
          else
            parseLoop projectName projectPath filePath nowIso fileBase rest none
        else
          parseLoop projectName projectPath filePath nowIso fileBase rest (some u)

/-- Source `parseConversationFile`, with file reading already performed:
the lines of the file are given as parsed records. -/
def parseConversationFile (projectPath filePath nowIso fileBase : String)
    (lines : List (Option ConvMessage)) : List ConversationExchange :=
  parseLoop (getProjectName projectPath) projectPath filePath nowIso fileBase lines none

-- ==========================================================================
-- Project path decoding (conversations.ts, decodeProjectPath)
-- ==========================================================================

/-- Models the first regex replace of decodeProjectPath, which rewrites a
leading dash to a slash and leaves everything else alone. -/
def replaceLeadingDash : List Char → List Char
  | [] => []
  | c :: cs => (if c = '-' then '/' else c) :: cs

/-- Models the second, global regex replace of decodeProjectPath, which
rewrites every dash to a slash. -/
def replaceAllDashes (cs : List Char) : List Char :=
  cs.map (fun c => if c = '-' then '/' else c)

/-- Source decodeProjectPath: the leading-dash replace followed by the
global dash replace. -/
def decodeProjectPath (encoded : String) : String :=
  String.mk (replaceAllDashes (replaceLeadingDash encoded.data))

/-- Modelled from the spec: the external log-directory encoding of an
absolute project path is a separator-character substitution, replacing each
"/" with "-" (the encoder lives in the external log producer, not in this
repository). -/
def encodeProjectPath (p : String) : String :=
  String.mk (p.data.map (fun c => if c = '/' then '-' else c))

-- ==========================================================================
-- Time-weighted search reranking (conversations.ts, getTimeWeight /
-- searchConversations)
-- ==========================================================================

/-- One day in milliseconds. -/
def dayMs : Int := 24 * 60 * 60 * 1000

/-- Source `getTimeWeight`.  `getTime` models `new Date(ts).getTime()` and
`now` models `Date.now()` (both external clock facilities). -/
def getTimeWeight (getTime : String → Int) (now : Int) (ts : String) : ℚ :=
  let age := now - getTime ts
  if age < 7 * dayMs then 1
  else if age < 30 * dayMs then 9/10
  else if age < 90 * dayMs then 7/10
  else if age < 365 * dayMs then 1/2
  else 3/10

/-- The denormalized metadata stored with each indexed exchange. -/
structure ExchangeMeta where
  userPrompt : String
  assistantSummary : String
  project : String
  projectPath : String
  branch : String
  timestamp : String
  sessionId : String
  sessionPath : String
  messageUuid : String
deriving DecidableEq

/-- One raw candidate returned by the vector-index similarity query. -/
structure RawItem where
  id : String
  score : ℚ
  meta : ExchangeMeta
deriving DecidableEq

/-- A reranked search result. -/
structure ConversationSearchResult where
  exchange : ConversationExchange
  score : ℚ
  adjustedScore : ℚ
deriving DecidableEq

/-- Rebuilds the exchange from stored metadata (source lines 301-312);
`meta.branch || undefined` maps the empty string back to absent. -/
def exchangeOfMeta (id : String) (m : ExchangeMeta) : ConversationExchange :=
  { id := id
  , userPrompt := m.userPrompt
  , assistantSummary := m.assistantSummary
  , project := m.project
  , projectPath := m.projectPath
  , branch := if m.branch = "" then none else some m.branch
  , timestamp := m.timestamp
  , sessionId := m.sessionId
  , sessionPath := m.sessionPath
  , messageUuid := m.messageUuid }

/-- The project boost of source lines 320-323: only a truthy (nonempty)
currentProject that equals the exchange projectPath gives the 1.5 factor. -/
def boostFactor (currentProject : Option String) (projectPath : String) : ℚ :=
  match currentProject with
  | some p => if p ≠ "" ∧ projectPath = p then 3/2 else 1
  | none => 1

/-- Converts one raw candidate into a scored result (source lines 298-330):
adjustedScore = score * timeWeight * projectBoost. -/
def adjustItem (getTime : String → Int) (now : Int)
    (currentProject : Option String) (r : RawItem) : ConversationSearchResult :=
  let exchange := exchangeOfMeta r.id r.meta
  { exchange := exchange
  , score := r.score
  , adjustedScore :=
      r.score * getTimeWeight getTime now exchange.timestamp
        * boostFactor currentProject exchange.projectPath }

/-- Descending order on adjusted score, the comparator of source line 340. -/
def scoreGE (a b : ConversationSearchResult) : Prop :=
  b.adjustedScore ≤ a.adjustedScore

instance : DecidableRel scoreGE := fun a b => by
  unfold scoreGE; infer_instance

instance : IsTotal ConversationSearchResult scoreGE :=
  ⟨fun a b => le_total b.adjustedScore a.adjustedScore⟩

instance : IsTrans ConversationSearchResult scoreGE :=
  ⟨fun _ _ _ h1 h2 => le_trans h2 h1⟩

/-- Source `searchConversations`.  `indexCount` models `listItems().length`;
`queryItems` models the raw similarity query (takes the candidate count).
JS stable sort is modelled by stable insertion sort. -/
def searchConversations (getTime : String → Int) (now : Int)
    (indexCount : Nat) (queryItems : Nat → List RawItem)
    (currentProject : Option String) (limit : Nat) (projectOnly : Bool) :
    List ConversationSearchResult :=
  if indexCount = 0 then []
  else
    let results := queryItems (limit * 3)
    let searchResults := results.map (adjustItem getTime now currentProject)
    let filtered :=
      match currentProject with
      | some p =>
        if projectOnly ∧ p ≠ "" then
          searchResults.filter (fun r => r.exchange.projectPath == p)
        else searchResults
      | none => searchResults
    (List.insertionSort scoreGE filtered).take limit

-- ==========================================================================
-- Conversation expansion (conversations.ts, expandConversation)
-- ==========================================================================

/-- One message collected by `expandConversation` before the uuid field is
stripped from the result. -/
structure ExpMsgFull where
  role : String
  content : String
  timestamp : Option String
  uuid : Option String
deriving DecidableEq

/-- One message as returned by `expandConversation`. -/
structure ExpMsg where
  role : String
  content : String
  timestamp : Option String
deriving DecidableEq

/-- Drops the uuid field (the `({ uuid, ...rest }) => rest` maps). -/
def stripUuid (m : ExpMsgFull) : ExpMsg :=
  ⟨m.role, m.content, m.timestamp⟩

/-- The user-side content in `expandConversation`: block contents are joined
with the empty separator, each block contributing `b.text || ""`. -/
def joinedContent : MsgContent → String
  | .str s => s
  | .blocks bs => String.join (bs.map (fun b => b.text.getD ""))

/-- The message-collection pass of `expandConversation` (source lines
368-402): user and assistant records with truthy content are kept in order. -/
def collectMessages : List (Option ConvMessage) → List ExpMsgFull
  | [] => []
  | none :: rest => collectMessages rest
  | some m :: rest =>
    match m.message with
    | some b =>
      if m.mtype == "user" && b.content.truthy then
        ⟨"user", joinedContent b.content, m.timestamp, m.uuid⟩ :: collectMessages rest
      else if m.mtype == "assistant" && b.content.truthy then
        ⟨"assistant", extractAssistantText b.content, m.timestamp, m.uuid⟩ :: collectMessages rest
      else collectMessages rest
    | none => collectMessages rest

/-- The first truthy cwd among kept user records (drives the `project`
field of the expansion result). -/
def firstUserCwd : List (Option ConvMessage) → Option String
  | [] => none
  | none :: rest => firstUserCwd rest
  | some m :: rest =>
    match m.message with
    | some b =>
      if m.mtype == "user" && b.content.truthy && (m.cwd.getD "" != "") then m.cwd
      else firstUserCwd rest
    | none => firstUserCwd rest

/-- The first truthy gitBranch among kept user records. -/
def firstUserBranch : List (Option ConvMessage) → Option String
  | [] => none
  | none :: rest => firstUserBranch rest
  | some m :: rest =>
    match m.message with
    | some b =>
      if m.mtype == "user" && b.content.truthy && (m.gitBranch.getD "" != "") then m.gitBranch
      else firstUserBranch rest
    | none => firstUserBranch rest

/-- The result of `expandConversation`. -/
structure ExpandResult where
  messages : List ExpMsg
  project : String
  branch : Option String
deriving DecidableEq

/-- The uuid-lookup predicate of source line 405 (`m.uuid === messageUuid`). -/
def uuidMatches (messageUuid : String) (m : ExpMsgFull) : Bool :=
  m.uuid == some messageUuid

/-- Source `expandConversation`, with the file already read and split into
parsed lines.  When the uuid is not found the last `contextMessages`
messages are returned through `slice(-contextMessages)`; otherwise a window
of `contextMessages` messages around the target, clamped to the list
bounds.  Nat subtraction models `Math.max(0, ...)`. -/
def expandConversation (lines : List (Option ConvMessage))
    (messageUuid : String) (contextMessages : Nat) : ExpandResult :=
  let messages := collectMessages lines
  let project := match firstUserCwd lines with
    | some c => getProjectName c
    | none => ""
  let branch := firstUserBranch lines
  match messages.findIdx? (uuidMatches messageUuid) with
  | none =>
    ⟨(jsSliceLast messages contextMessages).map stripUuid, project, branch⟩
  | some t =>
    let start := t - contextMessages / 2
    let stop := min messages.length (start + contextMessages)
    ⟨((messages.drop start).take (stop - start)).map stripUuid, project, branch⟩

-- ==========================================================================
-- Entity store and vector mirror (mcp-agent.ts)
-- ==========================================================================

/-- The state-file type enum of the source (StateType). -/
inductive StateType where
  | identity | today | topic | project | person
deriving DecidableEq

/-- The string form of a state type, as stored in the `type` column. -/
def StateType.str : StateType → String
  | .identity => "identity"
  | .today => "today"
  | .topic => "topic"
  | .project => "project"
  | .person => "person"

/-- One row of the state_files table. -/
structure StateRow where
  id : String
  type : String
  name : String
  content : String
  updatedAt : String
deriving DecidableEq

/-- One row of the journal table. -/
structure JournalRow where
  id : String
  topic : String
  content : String
  intent : Option String
  timestamp : String
deriving DecidableEq

/-- One record of the external vector index (id, embedding, metadata). -/
structure VectorEntry where
  id : String
  values : List Int
  metadata : List (String × String)
deriving DecidableEq

/-- One entry of the schedule table. -/
structure Schedule where
  id : String
  kind : String
  expr : String
  task : String
  description : String
  payload : String
  model : Option String
deriving DecidableEq

/-- The durable state of one MemoryAgent actor: the SQLite tables, the
mirrored vector index, and the schedule table. -/
structure AgentState where
  stateFiles : List StateRow
  journal : List JournalRow
  vectorIndex : List VectorEntry
  schedules : List Schedule
deriving DecidableEq

/-- The primary-key id of a state document: `state-<type>-<name>`. -/
def mkStateId (t : StateType) (name : String) : String :=
  "state-" ++ t.str ++ "-" ++ name

/-- SQLite INSERT OR REPLACE on a primary-key id column: any existing row
with the same id is dropped and the new row inserted. -/
def insertOrReplace (rows : List StateRow) (row : StateRow) : List StateRow :=
  row :: rows.filter (fun r => r.id != row.id)

/-- Upsert-by-id on the mirrored vector index. -/
def vecUpsert (entries : List VectorEntry) (e : VectorEntry) : List VectorEntry :=
  e :: entries.filter (fun x => x.id != e.id)

/-- Source getEmbedding: the external embedding call returns a vector or
nothing; absence is the hard failure "Failed to generate embedding".  `ai`
models `env.AI.run`. -/
def getEmbedding (ai : String → Option (List Int)) (text : String) :
    Except String (List Int) :=
  match ai text with
  | some v => .ok v
  | none => .error "Failed to generate embedding"

/-- The embedding input string of saveState: `<type> <name>: <content>`. -/
def stateEmbedText (t : StateType) (name content : String) : String :=
  t.str ++ " " ++ name ++ ": " ++ content

/-- The vector record upserted by saveState. -/
def stateVecEntry (t : StateType) (name content now : String)
    (v : List Int) : VectorEntry :=
  ⟨mkStateId t name, v,
    [("type", t.str), ("name", name), ("content", content), ("updatedAt", now)]⟩

/-- Source saveState: the SQLite INSERT OR REPLACE commits first; then the
embedding call and the vector upsert run, and any failure there propagates
to the caller without undoing the SQLite write.  `vup` models
`env.VECTORIZE.upsert` (ok, or a service error). -/
def saveState (ai : String → Option (List Int))
    (vup : VectorEntry → Except String Unit)
    (σ : AgentState) (t : StateType) (name content now : String) :
    AgentState × Except String Unit :=
  let row : StateRow := ⟨mkStateId t name, t.str, name, content, now⟩
  let σ1 := { σ with stateFiles := insertOrReplace σ.stateFiles row }
  match getEmbedding ai (stateEmbedText t name content) with
  | .error e => (σ1, .error e)
  | .ok v =>
    let entry := stateVecEntry t name content now v
    match vup entry with
    | .error e => (σ1, .error e)
    | .ok _ => ({ σ1 with vectorIndex := vecUpsert σ1.vectorIndex entry }, .ok ())

/-- The ambient clock and randomness of one journal write: Date.now in
milliseconds, the ISO timestamp, and the random id suffix. -/
structure JClock where
  nowMs : Int
  nowIso : String
  rand : String

/-- The embedding input string of saveJournal: `<topic>: <content>`. -/
def journalEmbedText (topic content : String) : String :=
  topic ++ ": " ++ content

/-- The vector record upserted by saveJournal. -/
def journalVecEntry (id topic content : String) (intent : Option String)
    (nowIso : String) (v : List Int) : VectorEntry :=
  ⟨id, v,
    [("type", "journal"), ("topic", topic), ("content", content),
      ("intent", intent.getD ""), ("timestamp", nowIso)]⟩

/-- Source saveJournal: a plain INSERT of a fresh journal row (id derived
from time and randomness), then the embedding call and vector upsert, whose
failures propagate without undoing the insert.  Returns the new id. -/
def saveJournal (ai : String → Option (List Int))
    (vup : VectorEntry → Except String Unit)
    (σ : AgentState) (topic content : String) (intent : Option String)
    (clk : JClock) : AgentState × Except String String :=
  let id := "journal-" ++ toString clk.nowMs ++ "-" ++ clk.rand
  let row : JournalRow := ⟨id, topic, content, intent, clk.nowIso⟩
  let σ1 := { σ with journal := row :: σ.journal }
  match getEmbedding ai (journalEmbedText topic content) with
  | .error e => (σ1, .error e)
  | .ok v =>
    let entry := journalVecEntry id topic content intent clk.nowIso v
    match vup entry with
    | .error e => (σ1, .error e)
    | .ok _ => ({ σ1 with vectorIndex := vecUpsert σ1.vectorIndex entry }, .ok id)

-- ==========================================================================
-- Scheduled task runner (mcp-agent.ts, runScheduledTask)
-- ==========================================================================

/-- The payload handed to runScheduledTask by the scheduler. -/
structure TaskData where
  id : Option String
  task : String
  description : Option String
  payload : Option String
  model : Option String

/-- The per-task instruction templates of runScheduledTask; the custom
entry falls back to the payload. -/
def taskPromptFor (d : TaskData) : String :=
  if d.task = "consolidate" then
    "Review recent journal entries and consolidate learnings into updated topics. Use search_memory to find relevant entries, then use write_state to update or create topics. Identify patterns and knowledge worth preserving."
  else if d.task = "reflect" then
    "Reflect on recent activity and identify insights, patterns, or things worth remembering. Search memory for recent entries, log important observations to journal, and update relevant topics."
  else if d.task = "cleanup" then
    "Review memory for stale, outdated, or redundant entries. Search for old topics, check if they are still accurate, and update or consolidate as needed. Keep the knowledge base current."
  else if d.task = "briefing" then
    "Prepare a briefing of what is important and what needs attention. Search memory for recent activity, priorities, and open threads. Summarize key points."
  else
    (d.payload).getD "Execute the scheduled task using available tools."

/-- The full prompt: for non-custom tasks a truthy payload is appended as
additional instructions. -/
def scheduledPrompt (d : TaskData) : String :=
  let base := taskPromptFor d
  match d.payload with
  | some p =>
    if p ≠ "" ∧ d.task ≠ "custom" then
      base ++ "\n\nAdditional instructions: " ++ p
    else base
  | none => base

/-- The deep-reasoning task set of runScheduledTask. -/
def needsThinking (task : String) : Bool :=
  ["reflect", "cleanup", "consolidate"].contains task

/-- The model-tier selection of runScheduledTask: an explicit override wins;
otherwise thinking for the deep-reasoning set, else fast. -/
def scheduledModelTier (d : TaskData) : String :=
  d.model.getD (if needsThinking d.task then "thinking" else "fast")

/-- The model tier passed by the refine tool to runAgentTask: always the
thinking tier, for every refine task kind. -/
def refineModelTier : String := "thinking"

/-- The catch block of runScheduledTask: the failure is logged to the
journal under `scheduled-<task>-error`; a failure of that journal write
itself propagates out. -/
def runTaskCatch (ai : String → Option (List Int))
    (vup : VectorEntry → Except String Unit)
    (σ : AgentState) (d : TaskData) (e : String) (clk : JClock) :
    AgentState × Except String Unit :=
  let (σ2, res2) := saveJournal ai vup σ ("scheduled-" ++ d.task ++ "-error")
    ("Scheduled task failed: " ++ (d.description.getD d.task) ++ "\n\nError: " ++ e)
    none clk
  match res2 with
  | .ok _ => (σ2, .ok ())
  | .error e2 => (σ2, .error e2)

/-- Source runScheduledTask: run the bounded generation loop (modelled by
the oracle `gen`, applied to the selected model tier and the built prompt);
on success log a completion journal entry, on any error log a failure
journal entry under `scheduled-<task>-error` instead of propagating it.
The schedule table is not touched. -/
def runScheduledTask (ai : String → Option (List Int))
    (vup : VectorEntry → Except String Unit)
    (gen : String → String → Except String String)
    (σ : AgentState) (d : TaskData) (clk1 clk2 : JClock) :
    AgentState × Except String Unit :=
  let prompt := scheduledPrompt d
  let tier := scheduledModelTier d
  match gen tier prompt with
  | .error e => runTaskCatch ai vup σ d e clk2
  | .ok result =>
    let (σ1, res) := saveJournal ai vup σ ("scheduled-" ++ d.task)
      ("Completed scheduled task: " ++ (d.description.getD d.task)
        ++ "\n\nSummary: " ++ jsSlice result 500)
      none clk1
    match res with
    | .ok _ => (σ1, .ok ())
    | .error e => runTaskCatch ai vup σ1 d e clk2

-- ==========================================================================
-- Concrete fixtures used by witnesses
-- ==========================================================================

/-- An embedding oracle that always succeeds. -/
def aiOk : String → Option (List Int) := fun _ => some [1]

/-- An embedding oracle that always fails. -/
def aiFail : String → Option (List Int) := fun _ => none

/-- A vector-upsert oracle that always succeeds. -/
def vupOk : VectorEntry → Except String Unit := fun _ => .ok ()

/-- A vector-upsert oracle that always fails. -/
def vupFail : VectorEntry → Except String Unit := fun _ => .error "vector service unavailable"

/-- The empty agent state. -/
def emptyAgentState : AgentState := ⟨[], [], [], []⟩

/-- A clock fixture. -/
def clkA : JClock := ⟨1000, "2025-01-01T00:00:00.000Z", "aaaaaaaa"⟩

/-- A second clock fixture. -/
def clkB : JClock := ⟨2000, "2025-01-01T00:00:01.000Z", "bbbbbbbb"⟩

/-- A date-parse oracle sending every timestamp to zero. -/
def zeroTime : String → Int := fun _ => 0

/-- An empty raw similarity query. -/
def emptyQuery : Nat → List RawItem := fun _ => []

-- ==========================================================================
-- General helper lemmas
-- ==========================================================================

lemma data_ne_of_ne_empty (s : String) (h : s ≠ "") : s.data ≠ [] := by
  intro hd
  apply h
  cases s with
  | mk d => cases hd; rfl

lemma jsSlice_ne_empty (s : String) (n : Nat) (hs : s ≠ "") (hn : n ≠ 0) :
    jsSlice s n ≠ "" := by
  have hd := data_ne_of_ne_empty s hs
  unfold jsSlice
  intro h
  apply hd
  have hdata : (String.mk (s.data.take n)).data = ("" : String).data := by rw [h]
  simp only [String.data] at hdata
  rcases List.take_eq_nil_iff.mp hdata with h0 | h0
  · exact absurd h0 hn
  · exact h0

lemma optOr_some_empty_default (s : String) : optOr (some s) "" = s := by
  by_cases h : s = "" <;> simp [optOr, h]

-- ==========================================================================
-- C4: project-path decoding
-- ==========================================================================

/-- C4: the claim says decodeProjectPath inverts the directory-name encoding
for all absolute paths, including paths whose segments contain hyphens.  The
code rewrites every hyphen to a slash, so the very example of its own doc
comment fails: "/Users/mkane/Repos/workers-sdk" encodes to
"-Users-mkane-Repos-workers-sdk" but decodes to
"/Users/mkane/Repos/workers/sdk".  This theorem evaluates the code at that
failing input. -/
theorem decodeProjectPath_breaks_hyphenated_segments :
    encodeProjectPath "/Users/mkane/Repos/workers-sdk"
        = "-Users-mkane-Repos-workers-sdk" ∧
    decodeProjectPath "-Users-mkane-Repos-workers-sdk"
        = "/Users/mkane/Repos/workers/sdk" ∧
    decodeProjectPath (encodeProjectPath "/Users/mkane/Repos/workers-sdk")
        ≠ "/Users/mkane/Repos/workers-sdk" := by
  refine ⟨by decide, by decide, by decide⟩

-- ==========================================================================
-- C9: model-tier selection
-- ==========================================================================

/-- C9: the model tier of a scheduled run is the explicitly supplied
override when present; otherwise the thinking tier when the task type is
reflect, cleanup or consolidate; otherwise the fast tier.  The refine tool
always supplies the thinking tier explicitly. -/
theorem scheduledModelTier_selection :
    (∀ (d : TaskData) (m : String), d.model = some m → scheduledModelTier d = m) ∧
    (∀ d : TaskData, d.model = none →
      (d.task = "reflect" ∨ d.task = "cleanup" ∨ d.task = "consolidate") →
      scheduledModelTier d = "thinking") ∧
    (∀ d : TaskData, d.model = none →
      d.task ≠ "reflect" → d.task ≠ "cleanup" → d.task ≠ "consolidate" →
      scheduledModelTier d = "fast") ∧
    refineModelTier = "thinking" := by
  refine ⟨?_, ?_, ?_, rfl⟩
  · intro d m h
    simp [scheduledModelTier, h]
  · intro d h ht
    simp only [scheduledModelTier, h, Option.getD_none]
    rcases ht with h1 | h1 | h1 <;> simp [needsThinking, h1]
  · intro d h h1 h2 h3
    simp [scheduledModelTier, h, needsThinking, h1, h2, h3]

/-- Witness for C9 at concrete inputs. -/
theorem scheduledModelTier_selection_witness :
    scheduledModelTier ⟨none, "reflect", none, none, none⟩ = "thinking" ∧
    scheduledModelTier ⟨none, "briefing", none, none, none⟩ = "fast" ∧
    scheduledModelTier ⟨none, "reflect", none, none, some "local"⟩ = "local" :=
  ⟨scheduledModelTier_selection.2.1 ⟨none, "reflect", none, none, none⟩ rfl (Or.inl rfl),
   scheduledModelTier_selection.2.2.1 ⟨none, "briefing", none, none, none⟩ rfl
     (by decide) (by decide) (by decide),
   scheduledModelTier_selection.1 ⟨none, "reflect", none, none, some "local"⟩ "local" rfl⟩

-- ==========================================================================
-- C8: idempotent upsert of state documents
-- ==========================================================================

/-- The (type, name) key test used by getState. -/
def matchKey (t : StateType) (n : String) (r : StateRow) : Bool :=
  r.type == t.str && r.name == n

/-- Well-formedness of the state_files table: the primary-key ids are
pairwise distinct, and every row carries the id derived from its own type
and name (every insert goes through saveState, which enforces this). -/
def WFStateRows (rows : List StateRow) : Prop :=
  rows.Pairwise (fun a b => a.id ≠ b.id) ∧
  ∀ r ∈ rows, ∃ t n, r.id = mkStateId t n ∧ r.type = t.str ∧ r.name = n

lemma StateType.str_inj : ∀ a b : StateType, a.str = b.str → a = b := by
  intro a b h
  cases a <;> cases b <;> first
    | rfl
    | exact absurd h (by decide)

lemma WF_insertOrReplace (rows : List StateRow) (t : StateType)
    (n c now : String) (h : WFStateRows rows) :
    WFStateRows (insertOrReplace rows ⟨mkStateId t n, t.str, n, c, now⟩) := by
  obtain ⟨hp, hwf⟩ := h
  constructor
  · unfold insertOrReplace
    refine List.Pairwise.cons ?_ ?_
    · intro r hr
      have hne := (List.mem_filter.mp hr).2
      simp only [bne_iff_ne, ne_eq] at hne
      exact fun hrid => hne hrid.symm
    · exact hp.sublist (List.filter_sublist rows)
  · intro r hr
    unfold insertOrReplace at hr
    rcases List.mem_cons.mp hr with h | h
    · exact ⟨t, n, by rw [h], by rw [h], by rw [h]⟩
    · exact hwf r ((List.filter_sublist rows).subset h)

lemma WF_keys_unique (rows : List StateRow) (h : WFStateRows rows) :
    rows.Pairwise (fun a b => ¬(a.type = b.type ∧ a.name = b.name)) := by
  obtain ⟨hp, hwf⟩ := h
  refine hp.imp_of_mem ?_
  intro a b ha hb hid ⟨hty, hnm⟩
  obtain ⟨ta, na, haid, haty, hanm⟩ := hwf a ha
  obtain ⟨tb, nb, hbid, hbty, hbnm⟩ := hwf b hb
  apply hid
  have hteq : ta = tb := StateType.str_inj ta tb (by rw [← haty, ← hbty, hty])
  have hneq : na = nb := by rw [← hanm, ← hbnm, hnm]
  rw [haid, hbid, hteq, hneq]

lemma saveState_stateFiles (ai : String → Option (List Int))
    (vup : VectorEntry → Except String Unit) (σ : AgentState)
    (t : StateType) (n c now : String) :
    (saveState ai vup σ t n c now).1.stateFiles
      = insertOrReplace σ.stateFiles ⟨mkStateId t n, t.str, n, c, now⟩ := by
  unfold saveState
  cases h : getEmbedding ai (stateEmbedText t n c) with
  | error e => simp
  | ok v =>
    simp only []
    cases h2 : vup (stateVecEntry t n c now v) with
    | error e => simp [h2]
    | ok u => simp [h2]

lemma filtered_no_match (rows : List StateRow) (t : StateType) (n : String)
    (hwf : ∀ r ∈ rows, ∃ t' n', r.id = mkStateId t' n' ∧ r.type = t'.str ∧ r.name = n')
    (r : StateRow) (hr : r ∈ rows.filter (fun x => x.id != mkStateId t n)) :
    matchKey t n r = false := by
  obtain ⟨hmem, hid⟩ := List.mem_filter.mp hr
  simp only [bne_iff_ne, ne_eq, decide_eq_true_eq] at hid
  obtain ⟨t', n', hrid, hrty, hrnm⟩ := hwf r hmem
  by_contra hmk
  rw [Bool.not_eq_false] at hmk
  unfold matchKey at hmk
  obtain ⟨hty, hnm⟩ := Bool.and_eq_true_iff.mp hmk
  rw [beq_iff_eq] at hty hnm
  apply hid
  have hteq : t' = t := StateType.str_inj t' t (by rw [← hrty, hty])
  rw [hrid, hteq, ← hrnm, hnm]


-- ==========================================================================
-- C1: vector-sync failure never rolls back the primary write
-- ==========================================================================

lemma saveJournal_state (ai : String → Option (List Int))
    (vup : VectorEntry → Except String Unit) (σ : AgentState)
    (topic content : String) (intent : Option String) (clk : JClock) :
    (saveJournal ai vup σ topic content intent clk).1.journal
      = ⟨"journal-" ++ toString clk.nowMs ++ "-" ++ clk.rand, topic, content,
          intent, clk.nowIso⟩ :: σ.journal ∧
    (saveJournal ai vup σ topic content intent clk).1.schedules = σ.schedules ∧
    (saveJournal ai vup σ topic content intent clk).1.stateFiles = σ.stateFiles := by
  unfold saveJournal
  cases h : getEmbedding ai (journalEmbedText topic content) with
  | error e => simp
  | ok v =>
    simp only []
    cases h2 : vup (journalVecEntry ("journal-" ++ toString clk.nowMs ++ "-" ++ clk.rand)
        topic content intent clk.nowIso v) with
    | error e => simp [h2]
    | ok u => simp [h2]

lemma saveJournal_ok (ai : String → Option (List Int))
    (vup : VectorEntry → Except String Unit) (σ : AgentState)
    (topic content : String) (intent : Option String) (clk : JClock)
    (hai : ∀ s, (ai s).isSome) (hvup : ∀ en, vup en = .ok ()) :
    (saveJournal ai vup σ topic content intent clk).2
      = .ok ("journal-" ++ toString clk.nowMs ++ "-" ++ clk.rand) := by
  unfold saveJournal
  have h1 : ∃ v, ai (journalEmbedText topic content) = some v := by
    have := hai (journalEmbedText topic content)
    cases h : ai (journalEmbedText topic content) with
    | none => rw [h] at this; exact absurd this (by simp)
    | some v => exact ⟨v, rfl⟩
  obtain ⟨v, hv⟩ := h1
  have hge : getEmbedding ai (journalEmbedText topic content) = .ok v := by
    unfold getEmbedding; rw [hv]
  rw [hge]
  simp only []
  rw [hvup]

/-- C1: when the primary SQLite write succeeds but the embedding call or the
vector upsert fails, the new record remains in the primary store with its
new content, and the failure propagates to the caller as an error — for both
saveState and saveJournal. -/
theorem syncUpsert_failure_keeps_primary_write (ai : String → Option (List Int))
    (vup : VectorEntry → Except String Unit) (σ : AgentState)
    (t : StateType) (n c now : String)
    (topic jcontent : String) (intent : Option String) (clk : JClock) :
    ((saveState ai vup σ t n c now).1.stateFiles.find? (matchKey t n)
        = some ⟨mkStateId t n, t.str, n, c, now⟩) ∧
    (∀ e, getEmbedding ai (stateEmbedText t n c) = .error e →
        (saveState ai vup σ t n c now).2 = .error e) ∧
    (∀ v e, getEmbedding ai (stateEmbedText t n c) = .ok v →
        vup (stateVecEntry t n c now v) = .error e →
        (saveState ai vup σ t n c now).2 = .error e) ∧
    ((saveJournal ai vup σ topic jcontent intent clk).1.journal.head?
        = some ⟨"journal-" ++ toString clk.nowMs ++ "-" ++ clk.rand, topic,
            jcontent, intent, clk.nowIso⟩) ∧
    (∀ e, getEmbedding ai (journalEmbedText topic jcontent) = .error e →
        (saveJournal ai vup σ topic jcontent intent clk).2 = .error e) ∧
    (∀ v e, getEmbedding ai (journalEmbedText topic jcontent) = .ok v →
        vup (journalVecEntry ("journal-" ++ toString clk.nowMs ++ "-" ++ clk.rand)
            topic jcontent intent clk.nowIso v) = .error e →
        (saveJournal ai vup σ topic jcontent intent clk).2 = .error e) := by
  refine ⟨?_, ?_, ?_, ?_, ?_, ?_⟩
  · rw [saveState_stateFiles ai vup σ t n c now]
    unfold insertOrReplace
    exact List.find?_cons_of_pos _ (by simp [matchKey])
  · intro e he
    unfold saveState
    rw [he]
  · intro v e hv hvup
    unfold saveState
    rw [hv]
    simp only []
    rw [hvup]
  · rw [(saveJournal_state ai vup σ topic jcontent intent clk).1]
    rfl
  · intro e he
    unfold saveJournal
    rw [he]
  · intro v e hv hvup
    unfold saveJournal
    rw [hv]
    simp only []
    rw [hvup]

/-- Witness for C1: a failing embedding oracle on a concrete write still
leaves the row in the primary store, and the error reaches the caller. -/
theorem syncUpsert_failure_witness :
    getEmbedding aiFail (stateEmbedText .today "today" "Ship v2")
        = .error "Failed to generate embedding" ∧
    (saveState aiFail vupOk emptyAgentState .today "today" "Ship v2" "t1").2
        = .error "Failed to generate embedding" ∧
    ((saveState aiFail vupOk emptyAgentState .today "today" "Ship v2" "t1").1.stateFiles.find?
        (matchKey .today "today")
      = some ⟨mkStateId .today "today", StateType.str .today, "today", "Ship v2", "t1"⟩) := by
  refine ⟨rfl, ?_, ?_⟩
  · exact (syncUpsert_failure_keeps_primary_write aiFail vupOk emptyAgentState .today "today"
      "Ship v2" "t1" "g" "c" none clkA).2.1 "Failed to generate embedding" rfl
  · exact (syncUpsert_failure_keeps_primary_write aiFail vupOk emptyAgentState .today "today"
      "Ship v2" "t1" "g" "c" none clkA).1

-- ==========================================================================
-- C5: scheduled-task failure containment
-- ==========================================================================

/-- C5: when the generation loop of a scheduled task throws, runScheduledTask
catches the error, appends a journal entry with topic
`scheduled-<task>-error` whose content carries the error message, leaves the
schedule table (and the state_files table) untouched, and — whenever the
journal write itself syncs cleanly — returns normally instead of
propagating the generation error to the scheduler. -/
theorem runScheduledTask_contains_failure (ai : String → Option (List Int))
    (vup : VectorEntry → Except String Unit)
    (gen : String → String → Except String String)
    (σ : AgentState) (d : TaskData) (clk1 clk2 : JClock) (e : String)
    (hgen : gen (scheduledModelTier d) (scheduledPrompt d) = .error e) :
    ((runScheduledTask ai vup gen σ d clk1 clk2).1.journal.head?
        = some ⟨"journal-" ++ toString clk2.nowMs ++ "-" ++ clk2.rand,
            "scheduled-" ++ d.task ++ "-error",
            "Scheduled task failed: " ++ (d.description.getD d.task) ++ "\n\nError: " ++ e,
            none, clk2.nowIso⟩) ∧
    (runScheduledTask ai vup gen σ d clk1 clk2).1.schedules = σ.schedules ∧
    (runScheduledTask ai vup gen σ d clk1 clk2).1.stateFiles = σ.stateFiles ∧
    ((∀ s, (ai s).isSome) → (∀ en, vup en = .ok ()) →
        (runScheduledTask ai vup gen σ d clk1 clk2).2 = .ok ()) := by
  have hrun : runScheduledTask ai vup gen σ d clk1 clk2 = runTaskCatch ai vup σ d e clk2 := by
    unfold runScheduledTask
    simp only [hgen]
  have hsj := saveJournal_state ai vup σ ("scheduled-" ++ d.task ++ "-error")
    ("Scheduled task failed: " ++ (d.description.getD d.task) ++ "\n\nError: " ++ e)
    none clk2
  have hcatch1 : (runTaskCatch ai vup σ d e clk2).1
      = (saveJournal ai vup σ ("scheduled-" ++ d.task ++ "-error")
          ("Scheduled task failed: " ++ (d.description.getD d.task) ++ "\n\nError: " ++ e)
          none clk2).1 := by
    unfold runTaskCatch
    cases h : (saveJournal ai vup σ ("scheduled-" ++ d.task ++ "-error")
        ("Scheduled task failed: " ++ (d.description.getD d.task) ++ "\n\nError: " ++ e)
        none clk2).2 with
    | error e2 => simp [h]
    | ok u => simp [h]
  refine ⟨?_, ?_, ?_, ?_⟩
  · rw [hrun, hcatch1, hsj.1]
    rfl
  · rw [hrun, hcatch1, hsj.2.1]
  · rw [hrun, hcatch1, hsj.2.2]
  · intro hai hvup
    rw [hrun]
    unfold runTaskCatch
    cases h2 : (saveJournal ai vup σ ("scheduled-" ++ d.task ++ "-error")
        ("Scheduled task failed: " ++ (d.description.getD d.task) ++ "\n\nError: " ++ e)
        none clk2).2 with
    | error e2 =>
      rw [saveJournal_ok ai vup σ _ _ none clk2 hai hvup] at h2
      simp at h2
    | ok u =>
      simp [h2]

/-- Witness for C5: a generation loop that throws "boom" on a concrete
scheduled briefing task. -/
theorem runScheduledTask_contains_failure_witness :
    ((runScheduledTask aiOk vupOk (fun _ _ => .error "boom") emptyAgentState
        ⟨none, "briefing", none, none, none⟩ clkA clkB).1.journal.head?
      = some ⟨"journal-" ++ toString clkB.nowMs ++ "-" ++ clkB.rand,
          "scheduled-briefing-error",
          "Scheduled task failed: briefing\n\nError: boom", none, clkB.nowIso⟩) ∧
    (runScheduledTask aiOk vupOk (fun _ _ => .error "boom") emptyAgentState
        ⟨none, "briefing", none, none, none⟩ clkA clkB).1.schedules = emptyAgentState.schedules ∧
    (runScheduledTask aiOk vupOk (fun _ _ => .error "boom") emptyAgentState
        ⟨none, "briefing", none, none, none⟩ clkA clkB).2 = .ok () := by
  have h := runScheduledTask_contains_failure aiOk vupOk (fun _ _ => .error "boom")
    emptyAgentState ⟨none, "briefing", none, none, none⟩ clkA clkB "boom" rfl
  exact ⟨h.1, h.2.1, h.2.2.2 (fun s => rfl) (fun en => rfl)⟩

-- ==========================================================================
-- C8: idempotent upsert of state documents
-- ==========================================================================

lemma runTaskCatch_state1 (ai : String → Option (List Int))
    (vup : VectorEntry → Except String Unit) (σ : AgentState)
    (d : TaskData) (e : String) (clk : JClock) :
    (runTaskCatch ai vup σ d e clk).1
      = (saveJournal ai vup σ ("scheduled-" ++ d.task ++ "-error")
          ("Scheduled task failed: " ++ (d.description.getD d.task) ++ "\n\nError: " ++ e)
          none clk).1 := by
  unfold runTaskCatch
  cases h : (saveJournal ai vup σ ("scheduled-" ++ d.task ++ "-error")
      ("Scheduled task failed: " ++ (d.description.getD d.task) ++ "\n\nError: " ++ e)
      none clk).2 with
  | error e2 => simp [h]
  | ok u => simp [h]

lemma runScheduledTask_stateFiles (ai : String → Option (List Int))
    (vup : VectorEntry → Except String Unit)
    (gen : String → String → Except String String)
    (σ : AgentState) (d : TaskData) (clk1 clk2 : JClock) :
    (runScheduledTask ai vup gen σ d clk1 clk2).1.stateFiles = σ.stateFiles := by
  unfold runScheduledTask
  cases hg : gen (scheduledModelTier d) (scheduledPrompt d) with
  | error e =>
    simp only [hg]
    rw [runTaskCatch_state1]
    exact (saveJournal_state ai vup σ _ _ none clk2).2.2
  | ok result =>
    simp only [hg]
    rcases hsj : saveJournal ai vup σ ("scheduled-" ++ d.task)
        ("Completed scheduled task: " ++ (d.description.getD d.task)
          ++ "\n\nSummary: " ++ jsSlice result 500) none clk1 with ⟨σ1, res⟩
    have hsf : σ1.stateFiles = σ.stateFiles := by
      have h := (saveJournal_state ai vup σ ("scheduled-" ++ d.task)
        ("Completed scheduled task: " ++ (d.description.getD d.task)
          ++ "\n\nSummary: " ++ jsSlice result 500) none clk1).2.2
      rw [hsj] at h
      exact h
    dsimp only
    cases res with
    | ok u => exact hsf
    | error e =>
      dsimp only
      rw [runTaskCatch_state1]
      have h2 := (saveJournal_state ai vup σ1 ("scheduled-" ++ d.task ++ "-error")
        ("Scheduled task failed: " ++ (d.description.getD d.task) ++ "\n\nError: " ++ e)
        none clk2).2.2
      rw [h2, hsf]

/-- One mutating operation of the memory agent: a state-document write, a
journal write, or a scheduled task run. -/
inductive AgentOp where
  | writeState (t : StateType) (name content now : String)
  | writeJournal (topic content : String) (intent : Option String) (clk : JClock)
  | runTask (gen : String → String → Except String String) (d : TaskData) (clk1 clk2 : JClock)

/-- Applies a sequence of agent operations, threading the durable state. -/
def applyOps (ai : String → Option (List Int)) (vup : VectorEntry → Except String Unit) :
    AgentState → List AgentOp → AgentState
  | σ, [] => σ
  | σ, .writeState t n c now :: rest =>
    applyOps ai vup (saveState ai vup σ t n c now).1 rest
  | σ, .writeJournal tp c i clk :: rest =>
    applyOps ai vup (saveJournal ai vup σ tp c i clk).1 rest
  | σ, .runTask gen d c1 c2 :: rest =>
    applyOps ai vup (runScheduledTask ai vup gen σ d c1 c2).1 rest

lemma applyOps_WF (ai : String → Option (List Int))
    (vup : VectorEntry → Except String Unit) :
    ∀ (ops : List AgentOp) (σ : AgentState), WFStateRows σ.stateFiles →
      WFStateRows (applyOps ai vup σ ops).stateFiles := by
  intro ops
  induction ops with
  | nil => intro σ h; exact h
  | cons op rest ih =>
    intro σ h
    cases op with
    | writeState t n c now =>
      exact ih _ (by rw [saveState_stateFiles]; exact WF_insertOrReplace _ t n c now h)
    | writeJournal tp c i clk =>
      exact ih _ (by rw [(saveJournal_state ai vup σ tp c i clk).2.2]; exact h)
    | runTask gen d c1 c2 =>
      exact ih _ (by rw [runScheduledTask_stateFiles]; exact h)

/-- C8: writing the same (type, name) twice leaves exactly one matching row,
whose content is the second write; the resulting table holds no two rows
with the same (type, name) pair; and no sequence of operations — state
writes, journal writes, scheduled task runs — applied to the empty store
ever creates two rows with the same (type, name) pair. -/
theorem saveState_idempotent_upsert (ai : String → Option (List Int))
    (vup : VectorEntry → Except String Unit) (σ : AgentState)
    (t : StateType) (n c1 c2 now1 now2 : String)
    (hwf : WFStateRows σ.stateFiles) :
    ((saveState ai vup (saveState ai vup σ t n c1 now1).1 t n c2 now2).1.stateFiles.countP
        (matchKey t n) = 1) ∧
    (∀ r ∈ (saveState ai vup (saveState ai vup σ t n c1 now1).1 t n c2 now2).1.stateFiles,
        matchKey t n r = true → r.content = c2) ∧
    ((saveState ai vup (saveState ai vup σ t n c1 now1).1 t n c2 now2).1.stateFiles.Pairwise
        (fun a b => ¬(a.type = b.type ∧ a.name = b.name))) ∧
    (∀ ops : List AgentOp,
      (applyOps ai vup emptyAgentState ops).stateFiles.Pairwise
        (fun a b => ¬(a.type = b.type ∧ a.name = b.name))) := by
  have h1 : (saveState ai vup σ t n c1 now1).1.stateFiles
      = insertOrReplace σ.stateFiles ⟨mkStateId t n, t.str, n, c1, now1⟩ :=
    saveState_stateFiles ai vup σ t n c1 now1
  have hwf1 : WFStateRows (saveState ai vup σ t n c1 now1).1.stateFiles := by
    rw [h1]; exact WF_insertOrReplace σ.stateFiles t n c1 now1 hwf
  have h2 : (saveState ai vup (saveState ai vup σ t n c1 now1).1 t n c2 now2).1.stateFiles
      = insertOrReplace (saveState ai vup σ t n c1 now1).1.stateFiles
          ⟨mkStateId t n, t.str, n, c2, now2⟩ :=
    saveState_stateFiles ai vup _ t n c2 now2
  have hwf2 : WFStateRows (saveState ai vup (saveState ai vup σ t n c1 now1).1 t n c2 now2).1.stateFiles := by
    rw [h2]; exact WF_insertOrReplace _ t n c2 now2 hwf1
  have hmatch : matchKey t n ⟨mkStateId t n, t.str, n, c2, now2⟩ = true := by
    simp [matchKey]
  have hzero : ((saveState ai vup σ t n c1 now1).1.stateFiles.filter
      (fun x => x.id != mkStateId t n)).countP (matchKey t n) = 0 :=
    List.countP_eq_zero.mpr (fun r hr => by
      rw [filtered_no_match (saveState ai vup σ t n c1 now1).1.stateFiles t n hwf1.2 r hr]
      exact fun h => absurd h (by simp))
  refine ⟨?_, ?_, ?_, ?_⟩
  · rw [h2]
    unfold insertOrReplace
    rw [List.countP_cons, hzero, if_pos hmatch]
  · intro r hr hm
    rw [h2] at hr
    unfold insertOrReplace at hr
    rcases List.mem_cons.mp hr with h | h
    · rw [h]
    · have := filtered_no_match (saveState ai vup σ t n c1 now1).1.stateFiles t n hwf1.2 r h
      rw [hm] at this
      exact absurd this (by simp)
  · exact WF_keys_unique _ hwf2
  · intro ops
    exact WF_keys_unique _ (applyOps_WF ai vup ops emptyAgentState
      ⟨List.Pairwise.nil, by simp [emptyAgentState]⟩)

/-- Witness for C8: two writes to (today, today) on the empty table, and a
concrete operation sequence with a journal write interleaved. -/
theorem saveState_idempotent_upsert_witness :
    WFStateRows emptyAgentState.stateFiles ∧
    ((saveState aiOk vupOk (saveState aiOk vupOk emptyAgentState .today "today" "Ship v1" "t1").1
        .today "today" "Ship v2" "t2").1.stateFiles.countP (matchKey .today "today") = 1) ∧
    ((applyOps aiOk vupOk emptyAgentState
        [AgentOp.writeState .today "today" "Ship v1" "t1",
          AgentOp.writeState .today "today" "Ship v2" "t2",
          AgentOp.writeJournal "git" "Command: git commit" none clkA]).stateFiles.Pairwise
      (fun a b => ¬(a.type = b.type ∧ a.name = b.name))) := by
  have hwf : WFStateRows emptyAgentState.stateFiles := ⟨List.Pairwise.nil, by simp [emptyAgentState]⟩
  exact ⟨hwf,
    (saveState_idempotent_upsert aiOk vupOk emptyAgentState .today "today"
      "Ship v1" "Ship v2" "t1" "t2" hwf).1,
    (saveState_idempotent_upsert aiOk vupOk emptyAgentState .today "today"
      "Ship v1" "Ship v2" "t1" "t2" hwf).2.2.2
      [AgentOp.writeState .today "today" "Ship v1" "t1",
        AgentOp.writeState .today "today" "Ship v2" "t2",
        AgentOp.writeJournal "git" "Command: git commit" none clkA]⟩

-- ==========================================================================
-- C2 and C10: exchange pairing
-- ==========================================================================

/-- A well-formed user log record with plain string content. -/
def userLine (content uuid sid ts : String) : Option ConvMessage :=
  some ⟨"user", some ⟨"user", .str content⟩, some uuid, some ts, some sid, none, none⟩

/-- A user log record whose content is an array of content blocks. -/
def userBlocksLine (bs : List ContentBlock) (uuid sid ts : String) : Option ConvMessage :=
  some ⟨"user", some ⟨"user", .blocks bs⟩, some uuid, some ts, some sid, none, none⟩

/-- An assistant log record carrying one text block. -/
def assistantLine (text uuid : String) : Option ConvMessage :=
  some ⟨"assistant", some ⟨"assistant", .blocks [⟨"text", some text⟩]⟩,
    some uuid, none, none, none, none⟩

/-- The exchange produced when the pending user record `(b, ub, sb, tsb)` is
paired with an assistant text `x` in the file at `fp`. -/
def pairedExchange (pp fp b x ub sb tsb : String) : ConversationExchange :=
  ⟨"conv-" ++ sb ++ "-" ++ ub, jsSlice b 1000, jsSlice x 500, getProjectName pp,
    pp, none, tsb, sb, fp, ub⟩

/-- C2: a log [user A, user B, assistant X] yields exactly the exchange
(B, X) — A is discarded; a log [user A, assistant X, assistant Y] yields
exactly the exchange (A, X) — Y yields nothing.  Contents are nonempty
strings and the user records carry nonempty session and timestamp fields. -/
theorem parse_pairing (pp fp now fb a b x y ua ub ux uy sa sb tsa tsb : String)
    (ha : a ≠ "") (hb : b ≠ "") (hx : x ≠ "") (hy : y ≠ "")
    (hsa : sa ≠ "") (htsa : tsa ≠ "") (hsb : sb ≠ "") (htsb : tsb ≠ "") :
    parseConversationFile pp fp now fb
        [userLine a ua sa tsa, userLine b ub sb tsb, assistantLine x ux]
      = [pairedExchange pp fp b x ub sb tsb] ∧
    parseConversationFile pp fp now fb
        [userLine a ua sa tsa, assistantLine x ux, assistantLine y uy]
      = [pairedExchange pp fp a x ua sa tsa] := by
  have hx5 : jsSlice x 500 ≠ "" := jsSlice_ne_empty x 500 hx (by decide)
  have hxb : (x != "") = true := by simp [hx]
  have hopt : ∀ s : String, (if s = "" then "" else s) = s := fun s => by
    split <;> simp_all
  constructor
  · simp [parseConversationFile, parseLoop, userLine, assistantLine, msgContentTruthy,
      MsgContent.truthy, stringContentOf, assistantTextOf, extractAssistantText,
      mkExchange, pairedExchange, tmplOpt, optOr, List.find?,
      ha, hb, hx, hsb, htsb, hx5, hxb, hopt]
  · simp [parseConversationFile, parseLoop, userLine, assistantLine, msgContentTruthy,
      MsgContent.truthy, stringContentOf, assistantTextOf, extractAssistantText,
      mkExchange, pairedExchange, tmplOpt, optOr, List.find?,
      ha, hx, hy, hsa, htsa, hx5, hxb, hopt]

/-- Witness for C2 at concrete log contents. -/
theorem parse_pairing_witness :
    parseConversationFile "/home/p" "/tmp/s.jsonl" "2025-01-01" "s"
        [userLine "first" "u1" "s1" "t1", userLine "second" "u2" "s2" "t2",
          assistantLine "answer" "u3"]
      = [pairedExchange "/home/p" "/tmp/s.jsonl" "second" "answer" "u2" "s2" "t2"] ∧
    parseConversationFile "/home/p" "/tmp/s.jsonl" "2025-01-01" "s"
        [userLine "first" "u1" "s1" "t1", assistantLine "answer" "u3",
          assistantLine "extra" "u4"]
      = [pairedExchange "/home/p" "/tmp/s.jsonl" "first" "answer" "u1" "s1" "t1"] :=
  parse_pairing "/home/p" "/tmp/s.jsonl" "2025-01-01" "s" "first" "second" "answer" "extra"
    "u1" "u2" "u3" "u4" "s1" "s2" "t1" "t2"
    (by decide) (by decide) (by decide) (by decide)
    (by decide) (by decide) (by decide) (by decide)

/-- C10: a user record whose content is an array of blocks is captured with
an empty userPrompt, so it yields no exchange, yet it still becomes the
pending user message: it displaces a valid pending prompt and consumes the
next assistant record, which then produces nothing either — while the same
assistant record paired with a plain-string user record does produce an
exchange. -/
theorem parse_array_content_consumes_assistant
    (pp fp now fb : String) (bs : List ContentBlock)
    (a x ua ub ux sa sb tsa tsb : String)
    (ha : a ≠ "") (hx : x ≠ "") (hsa : sa ≠ "") (htsa : tsa ≠ "") :
    parseConversationFile pp fp now fb
        [userBlocksLine bs ub sb tsb, assistantLine x ux] = [] ∧
    parseConversationFile pp fp now fb
        [userLine a ua sa tsa, userBlocksLine bs ub sb tsb, assistantLine x ux] = [] ∧
    parseConversationFile pp fp now fb
        [userLine a ua sa tsa, assistantLine x ux]
      = [pairedExchange pp fp a x ua sa tsa] := by
  have hx5 : jsSlice x 500 ≠ "" := jsSlice_ne_empty x 500 hx (by decide)
  have hxb : (x != "") = true := by simp [hx]
  have hopt : ∀ s : String, (if s = "" then "" else s) = s := fun s => by
    split <;> simp_all
  refine ⟨?_, ?_, ?_⟩
  · simp [parseConversationFile, parseLoop, userBlocksLine, assistantLine, msgContentTruthy,
      MsgContent.truthy, stringContentOf, assistantTextOf, extractAssistantText,
      hxb]
  · simp [parseConversationFile, parseLoop, userLine, userBlocksLine, assistantLine,
      msgContentTruthy, MsgContent.truthy, stringContentOf, assistantTextOf,
      extractAssistantText, ha, hxb]
  · simp [parseConversationFile, parseLoop, userLine, assistantLine, msgContentTruthy,
      MsgContent.truthy, stringContentOf, assistantTextOf, extractAssistantText,
      mkExchange, pairedExchange, tmplOpt, optOr, List.find?,
      ha, hx, hsa, htsa, hx5, hxb, hopt]

/-- Witness for C10 at concrete log contents. -/
theorem parse_array_content_witness :
    parseConversationFile "/home/p" "/tmp/s.jsonl" "2025-01-01" "s"
        [userBlocksLine [⟨"tool_result", none⟩] "u2" "s2" "t2",
          assistantLine "answer" "u3"] = [] ∧
    parseConversationFile "/home/p" "/tmp/s.jsonl" "2025-01-01" "s"
        [userLine "first" "u1" "s1" "t1",
          userBlocksLine [⟨"tool_result", none⟩] "u2" "s2" "t2",
          assistantLine "answer" "u3"] = [] ∧
    parseConversationFile "/home/p" "/tmp/s.jsonl" "2025-01-01" "s"
        [userLine "first" "u1" "s1" "t1", assistantLine "answer" "u3"]
      = [pairedExchange "/home/p" "/tmp/s.jsonl" "first" "answer" "u1" "s1" "t1"] :=
  parse_array_content_consumes_assistant "/home/p" "/tmp/s.jsonl" "2025-01-01" "s"
    [⟨"tool_result", none⟩] "first" "answer" "u1" "u2" "u3" "s1" "s2" "t1" "t2"
    (by decide) (by decide) (by decide) (by decide)

-- ==========================================================================
-- C3: adjusted-score formula and time-decay steps
-- ==========================================================================

/-- Counterexample for C3 as stated: the claim reads the decay steps with
inclusive bounds (age of at most 7 days gives weight 1.0), but the code
tests strict inequalities, so at an age of exactly 7 days the weight is
0.9, not 1.0. -/
theorem getTimeWeight_week_boundary_cex :
    7 * dayMs - zeroTime "2025-01-08T00:00:00Z" ≤ 7 * dayMs ∧
    getTimeWeight zeroTime (7 * dayMs) "2025-01-08T00:00:00Z" = 9/10 ∧
    (9/10 : ℚ) ≠ 1 := by
  refine ⟨by norm_num [zeroTime], ?_, by norm_num⟩
  norm_num [getTimeWeight, zeroTime, dayMs]

/-- C3 (amended): every returned result carries
adjustedScore = rawScore * timeWeight * projectBoost, where the boost is 1.5
exactly when a nonempty currentProject matches the exchange projectPath, and
the decay steps hold with strict bounds: age under 7 days gives 1.0, from 7
to under 30 days 0.9, from 30 to under 90 days 0.7, from 90 to under 365
days 0.5, and from 365 days on 0.3. -/
theorem searchConversations_adjusted_score (gt : String → Int) (now : Int)
    (ic : Nat) (q : Nat → List RawItem) (cp : Option String) (lim : Nat) (po : Bool) :
    (∀ r ∈ searchConversations gt now ic q cp lim po,
      r.adjustedScore = r.score * getTimeWeight gt now r.exchange.timestamp
        * boostFactor cp r.exchange.projectPath) ∧
    (∀ ts : String,
      (now - gt ts < 7 * dayMs → getTimeWeight gt now ts = 1) ∧
      (7 * dayMs ≤ now - gt ts → now - gt ts < 30 * dayMs → getTimeWeight gt now ts = 9/10) ∧
      (30 * dayMs ≤ now - gt ts → now - gt ts < 90 * dayMs → getTimeWeight gt now ts = 7/10) ∧
      (90 * dayMs ≤ now - gt ts → now - gt ts < 365 * dayMs → getTimeWeight gt now ts = 1/2) ∧
      (365 * dayMs ≤ now - gt ts → getTimeWeight gt now ts = 3/10)) := by
  constructor
  · intro r hr
    by_cases hic : ic = 0
    · simp [searchConversations, hic] at hr
    · simp only [searchConversations, if_neg hic] at hr
      have h1 := List.mem_of_mem_take hr
      have h2 := (List.perm_insertionSort scoreGE _).mem_iff.mp h1
      have h3 : r ∈ (q (lim * 3)).map (adjustItem gt now cp) := by
        rcases cp with _ | p
        · exact h2
        · dsimp only at h2
          by_cases hc : po = true ∧ p ≠ ""
          · rw [if_pos hc] at h2
            exact (List.filter_sublist _).subset h2
          · rw [if_neg hc] at h2
            exact h2
      obtain ⟨c, hcmem, hceq⟩ := List.mem_map.mp h3
      rw [← hceq]
      simp [adjustItem]
  · intro ts
    refine ⟨?_, ?_, ?_, ?_, ?_⟩
    · intro h1
      simp only [getTimeWeight, dayMs] at h1 ⊢
      rw [if_pos (by omega)]
    · intro h1 h2
      simp only [getTimeWeight, dayMs] at h1 h2 ⊢
      rw [if_neg (by omega), if_pos (by omega)]
    · intro h1 h2
      simp only [getTimeWeight, dayMs] at h1 h2 ⊢
      rw [if_neg (by omega), if_neg (by omega), if_pos (by omega)]
    · intro h1 h2
      simp only [getTimeWeight, dayMs] at h1 h2 ⊢
      rw [if_neg (by omega), if_neg (by omega), if_neg (by omega), if_pos (by omega)]
    · intro h1
      simp only [getTimeWeight, dayMs] at h1 ⊢
      rw [if_neg (by omega), if_neg (by omega), if_neg (by omega), if_neg (by omega)]

/-- A one-element index fixture. -/
def oneItem : RawItem := ⟨"conv-1", 1, ⟨"p", "a", "proj", "/p", "", "t", "s", "sp", "u"⟩⟩

/-- A raw similarity query returning the one-element fixture. -/
def oneQuery : Nat → List RawItem := fun _ => [oneItem]

/-- Witness for C3: the fresh-exchange branch of the decay steps, and the
score formula on a concrete one-candidate search. -/
theorem searchConversations_adjusted_score_witness :
    ((0:Int) - zeroTime "t" < 7 * dayMs) ∧
    getTimeWeight zeroTime 0 "t" = 1 ∧
    (adjustItem zeroTime 0 none oneItem).adjustedScore
      = (adjustItem zeroTime 0 none oneItem).score
        * getTimeWeight zeroTime 0 (adjustItem zeroTime 0 none oneItem).exchange.timestamp
        * boostFactor none (adjustItem zeroTime 0 none oneItem).exchange.projectPath := by
  have hmem : adjustItem zeroTime 0 none oneItem
      ∈ searchConversations zeroTime 0 1 oneQuery none 1 false := by
    simp [searchConversations, oneQuery, List.insertionSort, List.orderedInsert]
  exact ⟨by decide,
    ((searchConversations_adjusted_score zeroTime 0 1 oneQuery none 1 false).2 "t").1 (by decide),
    (searchConversations_adjusted_score zeroTime 0 1 oneQuery none 1 false).1 _ hmem⟩

-- ==========================================================================
-- C6: search pipeline shape
-- ==========================================================================

/-- C6: the raw similarity query is asked for 3x the limit; the projectOnly
filter (with a truthy currentProject) is applied before ranking; the output
is sorted in descending adjusted-score order; and at most `limit` results
are returned. -/
theorem searchConversations_pipeline (gt : String → Int) (now : Int)
    (ic : Nat) (q : Nat → List RawItem) (cp : Option String) (lim : Nat) (po : Bool) :
    (searchConversations gt now ic q cp lim po).length ≤ lim ∧
    List.Sorted scoreGE (searchConversations gt now ic q cp lim po) ∧
    (∀ r ∈ searchConversations gt now ic q cp lim po,
      ∃ c ∈ q (lim * 3), r = adjustItem gt now cp c) ∧
    (∀ p, cp = some p → p ≠ "" → po = true →
      ∀ r ∈ searchConversations gt now ic q cp lim po,
        r.exchange.projectPath = p) := by
  by_cases hic : ic = 0
  · refine ⟨?_, ?_, ?_, ?_⟩ <;> simp [searchConversations, hic]
  · refine ⟨?_, ?_, ?_, ?_⟩
    · simp only [searchConversations, if_neg hic]
      rw [List.length_take]
      exact min_le_left _ _
    · simp only [searchConversations, if_neg hic]
      exact List.Pairwise.sublist (List.take_sublist _ _)
        (List.sorted_insertionSort scoreGE _)
    · intro r hr
      simp only [searchConversations, if_neg hic] at hr
      have h1 := List.mem_of_mem_take hr
      have h2 := (List.perm_insertionSort scoreGE _).mem_iff.mp h1
      have h3 : r ∈ (q (lim * 3)).map (adjustItem gt now cp) := by
        rcases cp with _ | p
        · exact h2
        · dsimp only at h2
          by_cases hc : po = true ∧ p ≠ ""
          · rw [if_pos hc] at h2
            exact (List.filter_sublist _).subset h2
          · rw [if_neg hc] at h2
            exact h2
      obtain ⟨c, hcmem, hceq⟩ := List.mem_map.mp h3
      exact ⟨c, hcmem, hceq.symm⟩
    · intro p hp hpne hpo r hr
      subst hp
      simp only [searchConversations, if_neg hic] at hr
      have h1 := List.mem_of_mem_take hr
      have h2 := (List.perm_insertionSort scoreGE _).mem_iff.mp h1
      rw [if_pos ⟨hpo, hpne⟩] at h2
      have hmem := (List.mem_filter.mp h2).2
      exact beq_iff_eq.mp hmem

/-- Witness for C6: a concrete one-candidate project-only search. -/
theorem searchConversations_pipeline_witness :
    (searchConversations zeroTime 0 1 oneQuery (some "/p") 1 true).length ≤ 1 ∧
    (adjustItem zeroTime 0 (some "/p") oneItem).exchange.projectPath = "/p" := by
  have hmem : adjustItem zeroTime 0 (some "/p") oneItem
      ∈ searchConversations zeroTime 0 1 oneQuery (some "/p") 1 true := by
    simp [searchConversations, oneQuery, oneItem, adjustItem, exchangeOfMeta,
      List.insertionSort, List.orderedInsert]
  exact ⟨(searchConversations_pipeline zeroTime 0 1 oneQuery (some "/p") 1 true).1,
    (searchConversations_pipeline zeroTime 0 1 oneQuery (some "/p") 1 true).2.2.2
      "/p" rfl (by decide) rfl _ hmem⟩

-- ==========================================================================
-- C7: conversation expansion window
-- ==========================================================================

/-- Counterexample for C7 as stated: with windowSize 0 and a uuid that is
not in the file, the JS slice(-0) returns the whole message list, not the
last 0 messages, so the result is not bounded by the window size. -/
theorem expandConversation_zero_window_cex :
    (expandConversation [userLine "a" "u1" "s1" "t1", userLine "b" "u2" "s2" "t2"]
        "zz" 0).messages.length = 2 ∧
    (2 : Nat) ≠ 0 := by
  refine ⟨by decide, by decide⟩

lemma take_min_length {α : Type} (l : List α) (w : Nat) :
    l.take (min l.length w) = l.take w := by
  rcases Nat.le_total l.length w with h | h
  · rw [Nat.min_eq_left h, List.take_length, List.take_of_length_le h]
  · rw [Nat.min_eq_right h]

/-- A three-message file fixture. -/
def threeUserLines : List (Option ConvMessage) :=
  [userLine "a" "u1" "s1" "t1", userLine "b" "u2" "s2" "t2", userLine "c" "u3" "s3" "t3"]

/-- C7 (amended, for window sizes of at least 1): when some parsed message
carries the requested uuid (first match at index t), expandConversation
returns exactly the contiguous window of windowSize messages centered on
it — the window starting at max(0, t - floor(windowSize/2)), written here
with truncating Nat subtraction, and clamped at the end of the message
list by the take — and the target message lies inside that window; when no
parsed message carries the uuid, the result is exactly the last windowSize
messages (clamped to the list length). -/
theorem expandConversation_window (lines : List (Option ConvMessage))
    (uuid : String) (w : Nat) (hw : 1 ≤ w) :
    (∀ t, (collectMessages lines).findIdx? (uuidMatches uuid) = some t →
      ((expandConversation lines uuid w).messages
        = (((collectMessages lines).drop (t - w / 2)).take w).map stripUuid) ∧
      ∃ h : t < (collectMessages lines).length,
        stripUuid ((collectMessages lines).get ⟨t, h⟩)
          ∈ (expandConversation lines uuid w).messages) ∧
    ((collectMessages lines).findIdx? (uuidMatches uuid) = none →
      (expandConversation lines uuid w).messages
        = (((collectMessages lines).drop ((collectMessages lines).length - w)).map stripUuid)) := by
  cases hfind : (collectMessages lines).findIdx? (uuidMatches uuid) with
  | none =>
    have hexp : (expandConversation lines uuid w).messages
        = (jsSliceLast (collectMessages lines) w).map stripUuid := by
      simp only [expandConversation, hfind]
    have hslice : jsSliceLast (collectMessages lines) w
        = (collectMessages lines).drop ((collectMessages lines).length - w) := by
      unfold jsSliceLast
      rw [if_neg (by omega)]
    refine ⟨?_, ?_⟩
    · intro t ht
      simp at ht
    · intro _
      rw [hexp, hslice]
  | some t =>
    have htlen : t < (collectMessages lines).length :=
      (List.findIdx?_eq_some_iff_findIdx_eq.mp hfind).1
    have hexp : (expandConversation lines uuid w).messages
        = (((collectMessages lines).drop (t - w / 2)).take
            (min (collectMessages lines).length ((t - w / 2) + w) - (t - w / 2))).map stripUuid := by
      simp only [expandConversation, hfind]
    have hlen2 : ((collectMessages lines).drop (t - w / 2)).length
        = (collectMessages lines).length - (t - w / 2) := List.length_drop _ _
    have hminmin : min (collectMessages lines).length ((t - w / 2) + w) - (t - w / 2)
        = min ((collectMessages lines).drop (t - w / 2)).length w := by
      rw [hlen2]; omega
    have hwin : (expandConversation lines uuid w).messages
        = (((collectMessages lines).drop (t - w / 2)).take w).map stripUuid := by
      rw [hexp, hminmin, take_min_length]
    refine ⟨?_, ?_⟩
    · intro t' ht'
      injection ht' with ht''
      subst ht''
      refine ⟨hwin, htlen, ?_⟩
      rw [hwin]
      have hidx : t - (t - w / 2) < (((collectMessages lines).drop (t - w / 2)).take w).length := by
        rw [List.length_take, hlen2]
        omega
      have hval : (((collectMessages lines).drop (t - w / 2)).take w)[t - (t - w / 2)]
          = (collectMessages lines).get ⟨t, htlen⟩ := by
        rw [List.getElem_take, List.getElem_drop, List.get_eq_getElem]
        congr 1
        show t - w / 2 + (t - (t - w / 2)) = t
        omega
      have hmem := List.getElem_mem hidx
      rw [hval] at hmem
      exact List.mem_map_of_mem stripUuid hmem
    · intro h
      simp at h

/-- Witness for C7: the centered window around the middle message of a
three-message file, and the last-message fallback for an absent uuid. -/
theorem expandConversation_window_witness :
    ((expandConversation threeUserLines "u2" 1).messages
      = (((collectMessages threeUserLines).drop (1 - 1 / 2)).take 1).map stripUuid) ∧
    ((expandConversation [userLine "a" "u1" "s1" "t1"] "zz" 1).messages
      = (((collectMessages [userLine "a" "u1" "s1" "t1"]).drop
          ((collectMessages [userLine "a" "u1" "s1" "t1"]).length - 1)).map stripUuid)) :=
  ⟨((expandConversation_window threeUserLines "u2" 1 (by decide)).1 1 (by decide)).1,
   (expandConversation_window [userLine "a" "u1" "s1" "t1"] "zz" 1 (by decide)).2 (by decide)⟩
